import Mathlib

set_option autoImplicit false

namespace RtSlam

/-! Shallow embedding of the rtslam sources:
`src/hierarchicalDirectSegmentDetector.cpp` (segment feature selection) and
`test_suite/test_main.cpp` (entity graph construction: newRobot, newSensor,
newObservation, newLandmark, initSlam, initSomeLmks).  C++ doubles are
modelled as rationals; the opaque external segment detector's output is an
input list. -/


/-- A candidate line segment as produced by the external detection routine
(dseg::SegmentHypothesis): endpoints (x1, y1) and (x2, y2). -/
structure SegmentHypothesis where
  x1 : ℚ
  y1 : ℚ
  x2 : ℚ
  y2 : ℚ
deriving DecidableEq

/-- Squared Euclidean length between the two endpoints, exactly as computed in
HierarchicalDirectSegmentDetector::detectIn: dx*dx + dy*dy with dx = x1 - x2
and dy = y1 - y2. -/
def sqrLength (s : SegmentHypothesis) : ℚ :=
  (s.x1 - s.x2) * (s.x1 - s.x2) + (s.y1 - s.y2) * (s.y1 - s.y2)

/-- The region-of-interest argument (image::ConvexRoi).  Only a membership
test could ever be consulted; in the source the containment check on
candidates is commented out, so the selection never calls it. -/
structure ConvexRoi where
  isIn : ℚ × ℚ → Bool

/-- The data written into the feature on success: the 4-component measurement
(x1, y1, x2, y2), the match score, and the appearance snapshot of the winning
segment (AppearanceSegment of the best candidate). -/
structure SegFeature where
  measurement : ℚ × ℚ × ℚ × ℚ
  matchScore : ℚ
  appearance : SegmentHypothesis
deriving DecidableEq

/-- The selection loop of detectIn: iterates over the candidates with the
running index i, the current bestId (initialised to -1) and the current
bestSqrLength (initialised to -1); a candidate replaces the current best
exactly when its squared length is strictly greater. -/
def selectGo : List SegmentHypothesis → Nat → Int → ℚ → Int × ℚ
  | [], _, bestId, bestLen => (bestId, bestLen)
  | s :: rest, i, bestId, bestLen =>
    if sqrLength s > bestLen then
      selectGo rest (i + 1) (Int.ofNat i) (sqrLength s)
    else
      selectGo rest (i + 1) bestId bestLen

/-- HierarchicalDirectSegmentDetector::detectIn after the external call
detector.detectSegment: the candidate set produced by that call is passed
here as a list in the detector's order.  The C++ function returns a bool and
writes the feature through a pointer; the embedding returns the written
feature on success and none when ret stays false. -/
def detectIn (roi : ConvexRoi) (set : List SegmentHypothesis) :
    Option SegFeature :=
  if 0 < set.length then
    match selectGo set 0 (-1) (-1) with
    | (bestId, _) =>
      if 0 ≤ bestId then
        match set.get? bestId.toNat with
        | some seg =>
          some ⟨(seg.x1, seg.y1, seg.x2, seg.y2), 1, seg⟩
        | none => none
      else none
  else none

/-- A region of interest accepting every point; used as a concrete argument
in witnesses (the selection ignores the region of interest anyway). -/
def roiAll : ConvexRoi := ⟨fun _ => true⟩

/-- Concrete candidate (0, 0, 1, 0) of squared length 1. -/
def segA : SegmentHypothesis := ⟨0, 0, 1, 0⟩

/-- Concrete candidate (0, 0, 10, 0) of squared length 100. -/
def segB : SegmentHypothesis := ⟨0, 0, 10, 0⟩

/-- Concrete candidate (0, 0, 5, 5) of squared length 50. -/
def segC : SegmentHypothesis := ⟨0, 0, 5, 5⟩

/-! Entity graph of test_main.cpp.  The construction helpers newRobot,
newSensor, newObservation, newLandmark, initSlam and initSomeLmks are under
src/; the library classes they call (MapAbstract, IdFactory, the entity
constructors and the linkTo* primitives) are not, and are modelled from the
spec where marked.  The numeric contents of the mean vector (pose writes in
initSlam) are not modelled: no claim mentions them. -/

/-- Association map from ids to entities, modelling the std::map members of
the source (robots, sensors, landmarks, observations).  Entries are kept in
insertion order; inserting an existing key overwrites that entry in place,
as std::map operator square-bracket assignment does. -/
abbrev AssocMap (α : Type) : Type := List (Nat × α)

/-- Insert (or overwrite) the entry for key k. -/
def mapInsert {α : Type} (k : Nat) (v : α) : AssocMap α → AssocMap α
  | [] => [(k, v)]
  | (q, w) :: rest =>
    if q = k then (k, v) :: rest else (q, w) :: mapInsert k v rest

/-- Look up the entry for key k. -/
def mapFind {α : Type} (k : Nat) : AssocMap α → Option α
  | [] => none
  | (q, w) :: rest => if q = k then some w else mapFind k rest

/-- Apply f to the entry for key k, if present. -/
def mapUpdate {α : Type} (k : Nat) (f : α → α) : AssocMap α → AssocMap α
  | [] => []
  | (q, w) :: rest =>
    if q = k then (q, f w) :: rest else (q, w) :: mapUpdate k f rest

/-- Modelled from the spec: the per-entity-kind id allocator (the IdFactory
objects robotIds, sensorIds, landmarkIds are not under src/).  getId returns
the smallest released id if any exist, else the next counter value.  Ids
observed in the source start at 1 (test_main.cpp reads robots[1] and
sensors[1] for the first robot and first sensor). -/
structure IdPool where
  counter : Nat
  released : List Nat
deriving DecidableEq

/-- Draw an id: smallest released id first, else the counter. -/
def IdPool.getId : IdPool → Nat × IdPool
  | ⟨c, []⟩ => (c, ⟨c + 1, []⟩)
  | ⟨c, r :: rs⟩ =>
    let m := rs.foldl Nat.min r
    (m, ⟨c, (r :: rs).erase m⟩)

/-- Observation node (ObservationPinHoleAnchoredHomogeneousPoint as used in
test_main.cpp).  Only the graph attributes are modelled: the id (assigned 0
in newObservation) and the back-references to the sensor and landmark; the
measurement payload is never written on this code path. -/
structure Observation where
  id : Nat
  sensorId : Nat
  landmarkId : Nat
deriving DecidableEq

/-- Sensor node (SensorPinHole).  slot is present exactly when the sensor
pose is estimated in the state (isInMap). -/
structure Sensor where
  id : Nat
  name : String
  isInMap : Bool
  robotId : Nat
  slot : Option (Nat × Nat)
  observations : AssocMap Observation
deriving DecidableEq

/-- Robot node (Robot3DConstantVelocity).  linkedToMap is the back-reference
set by linkToMap. -/
structure Robot where
  id : Nat
  name : String
  linkedToMap : Bool
  slot : Nat × Nat
  sensors : AssocMap Sensor
deriving DecidableEq

/-- Landmark node (LandmarkAnchoredHomogeneousPoint). -/
structure Landmark where
  id : Nat
  name : String
  linkedToMap : Bool
  slot : Nat × Nat
  observations : AssocMap Observation
deriving DecidableEq

/-- The aggregate map: capacity and used high-water mark of the state arena,
the three id pools, and the owning robot and landmark mappings. -/
structure MapAbstract where
  max_size : Nat
  used : Nat
  robotIds : IdPool
  sensorIds : IdPool
  landmarkIds : IdPool
  robots : AssocMap Robot
  landmarks : AssocMap Landmark
deriving DecidableEq

/-- Error taxonomy of the spec (section 7). -/
inductive SlamError where
  | CapacityExceeded
  | UnknownId
deriving DecidableEq

deriving instance DecidableEq for Except

/-- Modelled from the spec: Robot3DConstantVelocity::size().  The concrete
state dimensions live outside src/; the graph claims do not depend on the
exact value. -/
def size_robCV : Nat := 13

/-- Modelled from the spec: SensorPinHole::size() (extrinsic pose slot). -/
def size_senPH : Nat := 7

/-- Modelled from the spec: LandmarkAnchoredHomogeneousPoint::size(). -/
def size_lmkAHP : Nat := 7

/-- MapAbstract::unusedStates(N): probes whether N more states fit. -/
def unusedStates (m : MapAbstract) (n : Nat) : Bool :=
  m.used + n ≤ m.max_size

/-- Modelled from the spec: StateArena allocation — carve the next
contiguous range, failing when capacity is exceeded.  No release happens on
any modelled path, so the free space is the suffix starting at used. -/
def stateAllocate (m : MapAbstract) (n : Nat) :
    Option ((Nat × Nat) × MapAbstract) :=
  if m.used + n ≤ m.max_size then
    some ((m.used, n), { m with used := m.used + n })
  else none

/-- MapAbstract(size_map): fresh map, empty pools, no entities. -/
def emptyMap (size_map : Nat) : MapAbstract :=
  ⟨size_map, 0, ⟨1, []⟩, ⟨1, []⟩, ⟨1, []⟩, [], []⟩

/-- newRobot of test_main.cpp.  The robot id is drawn from the robot IdPool
first (line 110); the Robot3DConstantVelocity constructor then takes the
state slot from the map (constructor body modelled from the spec: it fails
with CapacityExceeded when the arena cannot allocate, and the already-drawn
id stays consumed, as the C++ mutation of the pool is not undone).  On
success the robot is registered in the map's robot mapping (linkToRobot) and
back-linked (linkToMap). -/
def newRobot (m : MapAbstract) (name : String) :
    MapAbstract × Except SlamError Nat :=
  match m.robotIds.getId with
  | (rid, pool) =>
    let m1 : MapAbstract := { m with robotIds := pool }
    match stateAllocate m1 size_robCV with
    | none => (m1, Except.error SlamError.CapacityExceeded)
    | some (slot, m2) =>
      let rob : Robot := ⟨rid, name, true, slot, []⟩
      ({ m2 with robots := mapInsert rid rob m2.robots }, Except.ok rid)

/-- newSensor of test_main.cpp.  The sensor id is drawn from the shared
sensor IdPool; the SensorPinHole constructor allocates an extrinsic slot
only when isInMap (modelled from the spec); linkToSensor inserts the sensor
into the owning robot's mapping and linkToRobot sets the back-reference.
The robot is addressed by its key in the map's robot mapping, standing for
the robPtr argument; an absent key is a modelling artifact answered with
UnknownId. -/
def newSensor (m : MapAbstract) (rk : Nat) (name : String) (isInMap : Bool) :
    MapAbstract × Except SlamError Nat :=
  match mapFind rk m.robots with
  | none => (m, Except.error SlamError.UnknownId)
  | some rob =>
    match m.sensorIds.getId with
    | (sid, pool) =>
      let m1 : MapAbstract := { m with sensorIds := pool }
      if isInMap then
        match stateAllocate m1 size_senPH with
        | none => (m1, Except.error SlamError.CapacityExceeded)
        | some (slot, m2) =>
          let sen : Sensor := ⟨sid, name, isInMap, rob.id, some slot, []⟩
          ({ m2 with robots := mapUpdate rk (fun r =>
              { r with sensors := mapInsert sid sen r.sensors }) m2.robots },
           Except.ok sid)
      else
        let sen : Sensor := ⟨sid, name, isInMap, rob.id, none, []⟩
        ({ m1 with robots := mapUpdate rk (fun r =>
            { r with sensors := mapInsert sid sen r.sensors }) m1.robots },
         Except.ok sid)

/-- The observation constructed in newObservation of test_main.cpp:
default-constructed, id set to 0, then back-linked to its sensor and
landmark (linkToSensor, linkToLandmark). -/
def mkObservation (sen : Sensor) (lmk : Landmark) : Observation :=
  ⟨0, sen.id, lmk.id⟩

/-- newObservation of test_main.cpp: builds the observation (id 0, both
back-references), then senPtr->linkToObservation and
lmkPtr->linkToObservation insert it into the sensor's and the landmark's
observation mappings keyed by its id (mapping-by-observation-id modelled
from the spec).  The sensor is addressed by its path (robot key, sensor
key), standing for the senPtr argument; absent paths are modelling
artifacts answered by leaving the map unchanged. -/
def newObservation (m : MapAbstract) (rk sk lk : Nat) : MapAbstract :=
  match mapFind rk m.robots with
  | none => m
  | some rob =>
    match mapFind sk rob.sensors with
    | none => m
    | some sen =>
      match mapFind lk m.landmarks with
      | none => m
      | some lmk =>
        let obs := mkObservation sen lmk
        { m with
          robots := mapUpdate rk (fun r =>
            { r with sensors := mapUpdate sk (fun s =>
              { s with observations :=
                mapInsert obs.id obs s.observations }) r.sensors }) m.robots,
          landmarks := mapUpdate lk (fun l =>
            { l with observations :=
              mapInsert obs.id obs l.observations }) m.landmarks }

/-- newLandmark of test_main.cpp: draws the landmark id, constructs the
landmark (allocation modelled from the spec, as for newRobot), links it to
the map in both directions, then fans out one newObservation per
(robot, sensor) pair, iterating the robot mapping and each robot's sensor
mapping in order. -/
def newLandmark (m : MapAbstract) : MapAbstract × Except SlamError Nat :=
  match m.landmarkIds.getId with
  | (lid, pool) =>
    let m1 : MapAbstract := { m with landmarkIds := pool }
    match stateAllocate m1 size_lmkAHP with
    | none => (m1, Except.error SlamError.CapacityExceeded)
    | some (slot, m2) =>
      let lmk : Landmark := ⟨lid, "", true, slot, []⟩
      let m3 : MapAbstract :=
        { m2 with landmarks := mapInsert lid lmk m2.landmarks }
      let m4 := m3.robots.foldl (fun acc p =>
        p.2.sensors.foldl (fun acc2 q => newObservation acc2 p.1 q.1 lid) acc)
        m3
      (m4, Except.ok lid)

/-- initSlam of test_main.cpp: a fresh map of the given capacity, then one
robot SUBMARINE guarded by unusedStates, then sensors FLEA (not in map) and
MARLIN (in map), each guarded by unusedStates.  The pose writes into the
state mean are numeric only and not modelled. -/
def initSlam (size_map : Nat) : MapAbstract :=
  let m0 := emptyMap size_map
  if unusedStates m0 size_robCV then
    match newRobot m0 "SUBMARINE" with
    | (m1, Except.error _) => m1
    | (m1, Except.ok rid) =>
      let m2 :=
        if unusedStates m1 size_senPH then (newSensor m1 rid "FLEA" false).1
        else m1
      let m3 :=
        if unusedStates m2 size_senPH then (newSensor m2 rid "MARLIN" true).1
        else m2
      m3
  else m0

/-- initSomeLmks of test_main.cpp: N passes, each creating one landmark
guarded by unusedStates (the senPtr read inside the loop is unused in the
source and not modelled). -/
def initSomeLmks (m : MapAbstract) : Nat → MapAbstract
  | 0 => m
  | n + 1 =>
    initSomeLmks (if unusedStates m size_lmkAHP then (newLandmark m).1 else m) n

/-- All sensors of the map, in robot-mapping then sensor-mapping order (the
traversal order of test_main.cpp). -/
def sensorsOf (m : MapAbstract) : List Sensor :=
  (m.robots.map (fun p => p.2.sensors.map Prod.snd)).flatten

/-- All landmarks of the map, in mapping order. -/
def landmarksOf (m : MapAbstract) : List Landmark :=
  m.landmarks.map Prod.snd

/-- Observations reachable through the sensors' observation mappings. -/
def sensorObsList (m : MapAbstract) : List Observation :=
  ((sensorsOf m).map (fun s => s.observations.map Prod.snd)).flatten

/-- Observations reachable through the landmarks' observation mappings. -/
def landmarkObsList (m : MapAbstract) : List Observation :=
  ((landmarksOf m).map (fun l => l.observations.map Prod.snd)).flatten

/-- All reachable observation occurrences. -/
def allObsList (m : MapAbstract) : List Observation :=
  sensorObsList m ++ landmarkObsList m

/-- Number of distinct observations reachable from the map's mappings. -/
def distinctObsCount (m : MapAbstract) : Nat :=
  (allObsList m).dedup.length

/-- Number of sensors registered in the map. -/
def numSensors (m : MapAbstract) : Nat :=
  (sensorsOf m).length

/-- Number of landmarks registered in the map. -/
def numLandmarks (m : MapAbstract) : Nat :=
  (landmarksOf m).length

/-- All observations reachable in a map carry id 0. -/
def obsIdsAllZero (m : MapAbstract) : Prop :=
  ∀ o ∈ allObsList m, o.id = 0

/-- Bidirectional-link invariant: whenever an entity's mapping contains
another entity, the contained entity's back-reference points to the
container (map contains robot: linkedToMap set; robot contains sensor:
robotId equals the robot's id; sensor contains observation: sensorId equals
the sensor's id; map contains landmark: linkedToMap set; landmark contains
observation: landmarkId equals the landmark's id). -/
def wellLinked (m : MapAbstract) : Prop :=
  (∀ rp ∈ m.robots, rp.2.linkedToMap = true
    ∧ ∀ sp ∈ rp.2.sensors, sp.2.robotId = rp.2.id
      ∧ ∀ op ∈ sp.2.observations, op.2.sensorId = sp.2.id)
  ∧ ∀ lp ∈ m.landmarks, lp.2.linkedToMap = true
    ∧ ∀ op ∈ lp.2.observations, op.2.landmarkId = lp.2.id

/-- Sensor observation mapping after k landmark creations: empty before the
first landmark, afterwards exactly one entry, the observation of the newest
landmark k (the id-0 key is overwritten on every fan-out). -/
def expSensorObs (sid k : Nat) : AssocMap Observation :=
  if k = 0 then [] else [(0, ⟨0, sid, k⟩)]

/-- Sensor FLEA (id 1, pose not in the state) after k landmark creations. -/
def expFlea (k : Nat) : Sensor :=
  ⟨1, "FLEA", false, 1, none, expSensorObs 1 k⟩

/-- Sensor MARLIN (id 2, pose in the state, slot (13, 7)) after k landmark
creations. -/
def expMarlin (k : Nat) : Sensor :=
  ⟨2, "MARLIN", true, 1, some (13, 7), expSensorObs 2 k⟩

/-- Robot SUBMARINE (id 1, slot (0, 13)) with its two sensors after k
landmark creations. -/
def expRobot (k : Nat) : Robot :=
  ⟨1, "SUBMARINE", true, (0, 13), [(1, expFlea k), (2, expMarlin k)]⟩

/-- Mapping entry of landmark i+1: slot (20 + 7 i, 7); its observation
mapping holds exactly the observation of MARLIN, the last-iterated
sensor. -/
def expLandmark (i : Nat) : Nat × Landmark :=
  (i + 1, ⟨i + 1, "", true, (20 + 7 * i, 7), [(0, ⟨0, 2, i + 1⟩)]⟩)

/-- The state reached by initSlam cap followed by k landmark creations,
capacity permitting. -/
def expectedState (cap k : Nat) : MapAbstract :=
  ⟨cap, 20 + 7 * k, ⟨2, []⟩, ⟨3, []⟩, ⟨k + 1, []⟩, [(1, expRobot k)],
   (List.range k).map expLandmark⟩

/-! PredictCoupling.  ExtendedKalmanFilterIndirect::predict is not under
src/ (test_main.cpp line 267 only calls it); it is modelled from the spec,
section 4.4. -/

/-- Modelled from the spec: the robot-local Jacobian, scattered into the
full-size operator: the robot's own block inside its slot, the identity
outside.  The local Jacobian is passed as a full-size matrix of which only
the in-slot entries are read. -/
def scatterJac {n : Nat} (slot : Finset (Fin n))
    (J : Matrix (Fin n) (Fin n) ℚ) : Matrix (Fin n) (Fin n) ℚ :=
  Matrix.of fun i j =>
    if i ∈ slot ∧ j ∈ slot then J i j else if i = j then 1 else 0

/-- Modelled from the spec: the process noise scattered into full size,
zero outside the robot's slot. -/
def scatterNoise {n : Nat} (slot : Finset (Fin n))
    (Q : Matrix (Fin n) (Fin n) ℚ) : Matrix (Fin n) (Fin n) ℚ :=
  Matrix.of fun i j => if i ∈ slot ∧ j ∈ slot then Q i j else 0

/-- Modelled from the spec: predict advances the covariance restricted to
the used indices by standard linear propagation F P Fᵀ + Q_full with the
scattered Jacobian and noise; entries outside used_indices are untouched. -/
def ekfPredict {n : Nat} (used slot : Finset (Fin n))
    (J Q P : Matrix (Fin n) (Fin n) ℚ) : Matrix (Fin n) (Fin n) ℚ :=
  Matrix.of fun i j =>
    if i ∈ used ∧ j ∈ used then
      (scatterJac slot J * P * Matrix.transpose (scatterJac slot J)
        + scatterNoise slot Q) i j
    else P i j

/-- The robot slot of the 4-dimensional scenario: indices 0 and 1. -/
def robotSlot2 : Finset (Fin 4) := {0, 1}

/-- Embedding of the robot's 2-dimensional block into the full state. -/
def embFin : Fin 2 → Fin 4 := Fin.castLE (by omega)

/-- The robot's own 2-by-2 covariance block. -/
def robotBlock (P : Matrix (Fin 4) (Fin 4) ℚ) : Matrix (Fin 2) (Fin 2) ℚ :=
  Matrix.of fun a b => P (embFin a) (embFin b)

/-- A concrete covariance for the C5 witness. -/
def matC5 : Matrix (Fin 4) (Fin 4) ℚ :=
  Matrix.of fun i j => (i.val : ℚ) + 10 * (j.val : ℚ)

/-- Squared lengths are sums of squares, hence nonnegative. -/
theorem sqrLength_nonneg (s : SegmentHypothesis) : 0 ≤ sqrLength s := by
  have h1 := mul_self_nonneg (s.x1 - s.x2)
  have h2 := mul_self_nonneg (s.y1 - s.y2)
  unfold sqrLength
  linarith

/-- Characterisation of the selection loop: either no candidate beats the
incoming best (and the accumulator is returned unchanged), or the result is
the first candidate attaining the maximum among those strictly beating the
incoming best. -/
theorem selectGo_char (rest : List SegmentHypothesis) (i : Nat) (bid : Int)
    (blen : ℚ) :
    ((∀ s ∈ rest, sqrLength s ≤ blen) ∧ selectGo rest i bid blen = (bid, blen))
    ∨ (∃ j, ∃ h : j < rest.length,
        selectGo rest i bid blen
          = (Int.ofNat (i + j), sqrLength (rest.get ⟨j, h⟩))
        ∧ blen < sqrLength (rest.get ⟨j, h⟩)
        ∧ (∀ k, (hk : k < rest.length) →
            sqrLength (rest.get ⟨k, hk⟩) ≤ sqrLength (rest.get ⟨j, h⟩))
        ∧ (∀ k, (hk : k < j) →
            sqrLength (rest.get ⟨k, Nat.lt_trans hk h⟩)
              < sqrLength (rest.get ⟨j, h⟩))) := by
  induction rest generalizing i bid blen with
  | nil =>
    left
    constructor
    · intro s hs; cases hs
    · rfl
  | cons s rest ih =>
    by_cases hbeat : sqrLength s > blen
    · have hstep : selectGo (s :: rest) i bid blen
          = selectGo rest (i + 1) (Int.ofNat i) (sqrLength s) := by
        simp [selectGo, hbeat]
      rcases ih (i + 1) (Int.ofNat i) (sqrLength s) with ⟨hall, heq⟩ | ⟨j, hj, heq, hgt, hmax, hfirst⟩
      · right
        refine ⟨0, Nat.succ_pos _, ?_, hbeat, ?_, ?_⟩
        · rw [hstep, heq]; simp
        · intro k hk
          cases k with
          | zero => simp
          | succ k =>
            have hk2 : k < rest.length := Nat.lt_of_succ_lt_succ hk
            simpa using hall (rest.get ⟨k, hk2⟩) (rest.get_mem _ _)
        · intro k hk
          exact absurd hk (Nat.not_lt_zero k)
      · right
        refine ⟨j + 1, Nat.succ_lt_succ hj, ?_, ?_, ?_, ?_⟩
        · rw [hstep, heq]
          have : i + 1 + j = i + (j + 1) := by omega
          simp [this]
        · calc blen < sqrLength s := hbeat
            _ < _ := hgt
        · intro k hk
          cases k with
          | zero => simpa using le_of_lt hgt
          | succ k =>
            have hk2 : k < rest.length := Nat.lt_of_succ_lt_succ hk
            simpa using hmax k hk2
        · intro k hk
          cases k with
          | zero =>
            simpa using hgt
          | succ k =>
            have hk2 : k < j := Nat.lt_of_succ_lt_succ hk
            simpa using hfirst k hk2
    · have hle : sqrLength s ≤ blen := le_of_not_lt hbeat
      have hstep : selectGo (s :: rest) i bid blen
          = selectGo rest (i + 1) bid blen := by
        simp [selectGo, hbeat]
      rcases ih (i + 1) bid blen with ⟨hall, heq⟩ | ⟨j, hj, heq, hgt, hmax, hfirst⟩
      · left
        constructor
        · intro t ht
          rcases List.mem_cons.mp ht with rfl | ht
          · exact hle
          · exact hall t ht
        · rw [hstep, heq]
      · right
        refine ⟨j + 1, Nat.succ_lt_succ hj, ?_, hgt, ?_, ?_⟩
        · rw [hstep, heq]
          have : i + 1 + j = i + (j + 1) := by omega
          simp [this]
        · intro k hk
          cases k with
          | zero => simpa using le_trans hle (le_of_lt hgt)
          | succ k =>
            have hk2 : k < rest.length := Nat.lt_of_succ_lt_succ hk
            simpa using hmax k hk2
        · intro k hk
          cases k with
          | zero => simpa using lt_of_le_of_lt hle hgt
          | succ k =>
            have hk2 : k < j := Nat.lt_of_succ_lt_succ hk
            simpa using hfirst k hk2

/-- On a nonempty candidate list the loop started from (-1, -1) returns the
first index attaining the maximal squared length. -/
theorem selectGo_top (set : List SegmentHypothesis) (hne : set ≠ []) :
    ∃ j, ∃ h : j < set.length,
      selectGo set 0 (-1) (-1) = (Int.ofNat j, sqrLength (set.get ⟨j, h⟩))
      ∧ (∀ k, (hk : k < set.length) →
          sqrLength (set.get ⟨k, hk⟩) ≤ sqrLength (set.get ⟨j, h⟩))
      ∧ (∀ k, (hk : k < j) →
          sqrLength (set.get ⟨k, Nat.lt_trans hk h⟩)
            < sqrLength (set.get ⟨j, h⟩)) := by
  rcases selectGo_char set 0 (-1) (-1) with ⟨hall, _⟩ | ⟨j, hj, heq, _, hmax, hfirst⟩
  · exfalso
    rcases List.exists_mem_of_ne_nil set hne with ⟨s, hs⟩
    have := hall s hs
    have := sqrLength_nonneg s
    linarith
  · refine ⟨j, hj, ?_, hmax, hfirst⟩
    simpa using heq

/-- Full characterisation of detectIn on a nonempty candidate list: it
returns the feature built from the first candidate attaining the maximal
squared length. -/
theorem detectIn_spec (roi : ConvexRoi) (set : List SegmentHypothesis)
    (hne : set ≠ []) :
    ∃ j, ∃ h : j < set.length,
      detectIn roi set
        = some ⟨((set.get ⟨j, h⟩).x1, (set.get ⟨j, h⟩).y1,
                 (set.get ⟨j, h⟩).x2, (set.get ⟨j, h⟩).y2), 1, set.get ⟨j, h⟩⟩
      ∧ (∀ k, (hk : k < set.length) →
          sqrLength (set.get ⟨k, hk⟩) ≤ sqrLength (set.get ⟨j, h⟩))
      ∧ (∀ k, (hk : k < j) →
          sqrLength (set.get ⟨k, Nat.lt_trans hk h⟩)
            < sqrLength (set.get ⟨j, h⟩)) := by
  rcases selectGo_top set hne with ⟨j, hj, heq, hmax, hfirst⟩
  refine ⟨j, hj, ?_, hmax, hfirst⟩
  have hlen : 0 < set.length := List.length_pos.mpr hne
  have htn : (Int.ofNat j).toNat = j := rfl
  have hget : set.get? (Int.ofNat j).toNat = some (set.get ⟨j, hj⟩) := by
    rw [htn]
    exact List.get?_eq_get hj
  have hnn : (0 : Int) ≤ Int.ofNat j := Int.ofNat_nonneg j
  rw [detectIn, if_pos hlen, heq]
  dsimp only
  rw [if_pos hnn, hget]

/-- C2: on every nonempty candidate list, detectIn selects the candidate
maximising the squared Euclidean length between its endpoints, ties broken
in favour of the first-encountered candidate; in particular on
[(0,0,1,0), (0,0,10,0), (0,0,5,5)] it selects (0,0,10,0). -/
theorem claim_C2 :
    (∀ (roi : ConvexRoi) (set : List SegmentHypothesis), set ≠ [] →
      ∃ j, ∃ h : j < set.length,
        detectIn roi set
          = some ⟨((set.get ⟨j, h⟩).x1, (set.get ⟨j, h⟩).y1,
                   (set.get ⟨j, h⟩).x2, (set.get ⟨j, h⟩).y2), 1,
                  set.get ⟨j, h⟩⟩
        ∧ (∀ k, (hk : k < set.length) →
            sqrLength (set.get ⟨k, hk⟩) ≤ sqrLength (set.get ⟨j, h⟩))
        ∧ (∀ k, (hk : k < j) →
            sqrLength (set.get ⟨k, Nat.lt_trans hk h⟩)
              < sqrLength (set.get ⟨j, h⟩)))
    ∧ (∀ roi : ConvexRoi,
        detectIn roi [segA, segB, segC]
          = some ⟨(0, 0, 10, 0), 1, segB⟩) := by
  constructor
  · exact detectIn_spec
  · intro roi
    norm_num [detectIn, selectGo, sqrLength, segA, segB, segC]

/-- C2 witness: the general selection rule applied to the concrete list
[(0,0,1,0), (0,0,10,0), (0,0,5,5)] with a concrete region of interest. -/
theorem claim_C2_witness :
    ∃ j, ∃ h : j < ([segA, segB, segC] : List SegmentHypothesis).length,
      detectIn roiAll [segA, segB, segC]
        = some ⟨((([segA, segB, segC] : List SegmentHypothesis).get ⟨j, h⟩).x1,
                 (([segA, segB, segC] : List SegmentHypothesis).get ⟨j, h⟩).y1,
                 (([segA, segB, segC] : List SegmentHypothesis).get ⟨j, h⟩).x2,
                 (([segA, segB, segC] : List SegmentHypothesis).get ⟨j, h⟩).y2),
                1,
                ([segA, segB, segC] : List SegmentHypothesis).get ⟨j, h⟩⟩
      ∧ (∀ k, (hk : k < ([segA, segB, segC] : List SegmentHypothesis).length) →
          sqrLength (([segA, segB, segC] : List SegmentHypothesis).get ⟨k, hk⟩)
            ≤ sqrLength (([segA, segB, segC] : List SegmentHypothesis).get ⟨j, h⟩))
      ∧ (∀ k, (hk : k < j) →
          sqrLength (([segA, segB, segC] : List SegmentHypothesis).get
              ⟨k, Nat.lt_trans hk h⟩)
            < sqrLength (([segA, segB, segC] : List SegmentHypothesis).get ⟨j, h⟩)) :=
  claim_C2.1 roiAll [segA, segB, segC] (by simp)

/-- C6: on an empty candidate set detectIn reports the normal empty result
(the C++ function returns false without touching the feature; the embedding
returns none), for every region of interest. -/
theorem claim_C6 : ∀ roi : ConvexRoi, detectIn roi [] = none := by
  intro roi
  rfl

/-- C7: whenever detectIn succeeds, the feature it returns carries the
winning segment's endpoints as the 4 measurement components (x1, y1, x2, y2),
the fixed match-score placeholder 1, and the winning segment itself as the
appearance snapshot. -/
theorem claim_C7 :
    ∀ (roi : ConvexRoi) (set : List SegmentHypothesis) (f : SegFeature),
      detectIn roi set = some f →
      ∃ w ∈ set, f.measurement = (w.x1, w.y1, w.x2, w.y2)
        ∧ f.matchScore = 1 ∧ f.appearance = w := by
  intro roi set f h
  rcases eq_or_ne set [] with rfl | hne
  · exact absurd h (by simp [detectIn])
  · rcases detectIn_spec roi set hne with ⟨j, hj, heq, _, _⟩
    rw [heq] at h
    injection h with h
    refine ⟨set.get ⟨j, hj⟩, set.get_mem _ _, ?_⟩
    rw [← h]
    exact ⟨rfl, rfl, rfl⟩

/-- C7 witness: detectIn on the concrete candidate list succeeds and the
returned feature is built from a candidate of the list. -/
theorem claim_C7_witness :
    ∃ w ∈ ([segA, segB, segC] : List SegmentHypothesis),
      (⟨(0, 0, 10, 0), 1, segB⟩ : SegFeature).measurement
          = (w.x1, w.y1, w.x2, w.y2)
        ∧ (⟨(0, 0, 10, 0), 1, segB⟩ : SegFeature).matchScore = 1
        ∧ (⟨(0, 0, 10, 0), 1, segB⟩ : SegFeature).appearance = w :=
  claim_C7 roiAll [segA, segB, segC] ⟨(0, 0, 10, 0), 1, segB⟩
    (by norm_num [detectIn, selectGo, sqrLength, segA, segB, segC])

/-- C8: for a fixed candidate collection produced by the external detection
routine, the selection and the returned measurement do not depend on the
region-of-interest argument: the containment check is absent (commented out
in the source), so any two regions of interest give identical results. -/
theorem claim_C8 :
    ∀ (roi1 roi2 : ConvexRoi) (set : List SegmentHypothesis),
      detectIn roi1 set = detectIn roi2 set := by
  intro roi1 roi2 set
  rfl

/-- Members of mapInsert are the new entry or old entries. -/
theorem mapInsert_mem {α : Type} {k : Nat} {v : α} {l : AssocMap α}
    {p : Nat × α} (hp : p ∈ mapInsert k v l) : p = (k, v) ∨ p ∈ l := by
  induction l with
  | nil => simpa [mapInsert] using hp
  | cons q rest ih =>
    by_cases hq : q.1 = k
    · rw [show q = (q.1, q.2) from rfl, mapInsert, if_pos hq] at hp
      rcases List.mem_cons.mp hp with rfl | hp
      · exact Or.inl rfl
      · exact Or.inr (List.mem_cons_of_mem _ hp)
    · rw [show q = (q.1, q.2) from rfl, mapInsert, if_neg hq] at hp
      rcases List.mem_cons.mp hp with rfl | hp
      · exact Or.inr (List.mem_cons_self _ _)
      · rcases ih hp with h | h
        · exact Or.inl h
        · exact Or.inr (List.mem_cons_of_mem _ h)

/-- Members of mapUpdate are old entries or the image of an old entry. -/
theorem mapUpdate_mem {α : Type} {k : Nat} {f : α → α} {l : AssocMap α}
    {p : Nat × α} (hp : p ∈ mapUpdate k f l) :
    p ∈ l ∨ ∃ q ∈ l, p = (q.1, f q.2) := by
  induction l with
  | nil => simp [mapUpdate] at hp
  | cons q rest ih =>
    by_cases hq : q.1 = k
    · rw [show q = (q.1, q.2) from rfl, mapUpdate, if_pos hq] at hp
      rcases List.mem_cons.mp hp with rfl | hp
      · exact Or.inr ⟨q, List.mem_cons_self _ _, rfl⟩
      · exact Or.inl (List.mem_cons_of_mem _ hp)
    · rw [show q = (q.1, q.2) from rfl, mapUpdate, if_neg hq] at hp
      rcases List.mem_cons.mp hp with rfl | hp
      · exact Or.inl (List.mem_cons_self _ _)
      · rcases ih hp with h | ⟨r, hr, he⟩
        · exact Or.inl (List.mem_cons_of_mem _ h)
        · exact Or.inr ⟨r, List.mem_cons_of_mem _ hr, he⟩

/-- A successful find is a member. -/
theorem mapFind_mem {α : Type} {k : Nat} {l : AssocMap α} {v : α}
    (h : mapFind k l = some v) : (k, v) ∈ l := by
  induction l with
  | nil => simp [mapFind] at h
  | cons q rest ih =>
    by_cases hq : q.1 = k
    · rw [show q = (q.1, q.2) from rfl, mapFind, if_pos hq] at h
      injection h with h
      subst hq
      subst h
      exact List.mem_cons_self _ _
    · rw [show q = (q.1, q.2) from rfl, mapFind, if_neg hq] at h
      exact List.mem_cons_of_mem _ (ih h)

/-- Inserting a key absent from the map appends the entry. -/
theorem mapInsert_append {α : Type} {k : Nat} {v : α} {l : AssocMap α}
    (h : ∀ p ∈ l, p.1 ≠ k) : mapInsert k v l = l ++ [(k, v)] := by
  induction l with
  | nil => rfl
  | cons q rest ih =>
    have hq : q.1 ≠ k := h q (List.mem_cons_self _ _)
    rw [show q = (q.1, q.2) from rfl, mapInsert, if_neg hq]
    rw [ih fun p hp => h p (List.mem_cons_of_mem _ hp)]
    rfl

/-- Finding a key absent from the prefix searches the suffix. -/
theorem mapFind_append {α : Type} {k : Nat} {l l2 : AssocMap α}
    (h : ∀ p ∈ l, p.1 ≠ k) : mapFind k (l ++ l2) = mapFind k l2 := by
  induction l with
  | nil => rfl
  | cons q rest ih =>
    have hq : q.1 ≠ k := h q (List.mem_cons_self _ _)
    rw [show q = (q.1, q.2) from rfl, List.cons_append, mapFind, if_neg hq]
    exact ih fun p hp => h p (List.mem_cons_of_mem _ hp)

/-- Updating a key absent from the prefix updates the suffix. -/
theorem mapUpdate_append {α : Type} {k : Nat} {f : α → α} {l l2 : AssocMap α}
    (h : ∀ p ∈ l, p.1 ≠ k) : mapUpdate k f (l ++ l2) = l ++ mapUpdate k f l2 := by
  induction l with
  | nil => rfl
  | cons q rest ih =>
    have hq : q.1 ≠ k := h q (List.mem_cons_self _ _)
    rw [show q = (q.1, q.2) from rfl, List.cons_append, mapUpdate, if_neg hq]
    rw [ih fun p hp => h p (List.mem_cons_of_mem _ hp)]
    rfl

/-- Folding a state-preserving step preserves a predicate. -/
theorem foldl_preserves {β : Type} {P : MapAbstract → Prop}
    (step : MapAbstract → β → MapAbstract) (l : List β)
    (hstep : ∀ acc b, P acc → P (step acc b)) :
    ∀ m, P m → P (l.foldl step m) := by
  induction l with
  | nil => intro m hm; exact hm
  | cons b rest ih =>
    intro m hm
    exact ih (step m b) (hstep m b hm)

/-- The reachable observations only depend on the two entity mappings. -/
theorem allObsList_congr {m1 m2 : MapAbstract} (hr : m1.robots = m2.robots)
    (hl : m1.landmarks = m2.landmarks) : allObsList m1 = allObsList m2 := by
  simp [allObsList, sensorObsList, landmarkObsList, sensorsOf, landmarksOf,
    hr, hl]

/-- Membership in the sensor-side observation list, unfolded. -/
theorem sensorObsList_mem {m : MapAbstract} {o : Observation} :
    o ∈ sensorObsList m
      ↔ ∃ rp ∈ m.robots, ∃ sp ∈ rp.2.sensors, ∃ op ∈ sp.2.observations,
          op.2 = o := by
  simp only [sensorObsList, sensorsOf, List.mem_flatten, List.mem_map]
  constructor
  · rintro ⟨l, ⟨s, ⟨⟨l2, ⟨rp, hrp, rfl⟩, hs⟩, rfl⟩⟩, ho⟩
    rcases List.mem_map.mp hs with ⟨sp, hsp, rfl⟩
    rcases List.mem_map.mp ho with ⟨op, hop, rfl⟩
    exact ⟨rp, hrp, sp, hsp, op, hop, rfl⟩
  · rintro ⟨rp, hrp, sp, hsp, op, hop, rfl⟩
    refine ⟨sp.2.observations.map Prod.snd, ⟨sp.2, ⟨⟨rp.2.sensors.map Prod.snd,
      ⟨rp, hrp, rfl⟩, List.mem_map_of_mem Prod.snd hsp⟩, rfl⟩⟩, ?_⟩
    exact List.mem_map_of_mem Prod.snd hop

/-- Membership in the landmark-side observation list, unfolded. -/
theorem landmarkObsList_mem {m : MapAbstract} {o : Observation} :
    o ∈ landmarkObsList m
      ↔ ∃ lp ∈ m.landmarks, ∃ op ∈ lp.2.observations, op.2 = o := by
  simp only [landmarkObsList, landmarksOf, List.mem_flatten, List.mem_map]
  constructor
  · rintro ⟨l, ⟨lm, ⟨⟨lp, hlp, rfl⟩, rfl⟩⟩, ho⟩
    rcases List.mem_map.mp ho with ⟨op, hop, rfl⟩
    exact ⟨lp, hlp, op, hop, rfl⟩
  · rintro ⟨lp, hlp, op, hop, rfl⟩
    exact ⟨lp.2.observations.map Prod.snd, ⟨lp.2, ⟨lp, hlp, rfl⟩, rfl⟩,
      List.mem_map_of_mem Prod.snd hop⟩

/-- Unfolding equation for allObsList. -/
theorem allObsList_eq (m : MapAbstract) :
    allObsList m = sensorObsList m ++ landmarkObsList m := rfl

/-- Successful allocation only advances the used mark. -/
theorem stateAllocate_some {m : MapAbstract} {n : Nat} {s : Nat × Nat}
    {m2 : MapAbstract} (h : stateAllocate m n = some (s, m2)) :
    m2 = { m with used := m.used + n } ∧ s = (m.used, n) := by
  unfold stateAllocate at h
  by_cases hc : m.used + n ≤ m.max_size
  · rw [if_pos hc] at h
    injection h with h
    exact ⟨(congrArg Prod.snd h).symm, (congrArg Prod.fst h).symm⟩
  · rw [if_neg hc] at h
    exact absurd h (by simp)

/-- Creating a robot never creates a reachable observation. -/
theorem allObs_newRobot (m : MapAbstract) (name : String) :
    ∀ o ∈ allObsList (newRobot m name).1, o ∈ allObsList m := by
  intro o ho
  rcases hg : m.robotIds.getId with ⟨rid, pool⟩
  rcases hs : stateAllocate { m with robotIds := pool } size_robCV
    with _ | ⟨slot, m2⟩
  · have hres : (newRobot m name).1 = { m with robotIds := pool } := by
      unfold newRobot
      rw [hg]
      dsimp only
      rw [hs]
    rw [hres] at ho
    rwa [show allObsList { m with robotIds := pool } = allObsList m from
      allObsList_congr rfl rfl] at ho
  · obtain ⟨hm2, -⟩ := stateAllocate_some hs
    have hres : (newRobot m name).1
        = { m2 with robots :=
            mapInsert rid ⟨rid, name, true, slot, []⟩ m2.robots } := by
      unfold newRobot
      rw [hg]
      dsimp only
      rw [hs]
    rw [hres] at ho
    have hrob : m2.robots = m.robots := by rw [hm2]
    have hlmks : m2.landmarks = m.landmarks := by rw [hm2]
    rw [allObsList_eq] at ho ⊢
    rcases List.mem_append.mp ho with hsen | hlmk
    · rcases sensorObsList_mem.mp hsen with ⟨rp, hrp, sp, hsp, op, hop, rfl⟩
      rcases mapInsert_mem hrp with rfl | hrp2
      · simp at hsp
      · exact List.mem_append_left _
          (sensorObsList_mem.mpr ⟨rp, hrob ▸ hrp2, sp, hsp, op, hop, rfl⟩)
    · rcases landmarkObsList_mem.mp hlmk with ⟨lp, hlp, op, hop, rfl⟩
      exact List.mem_append_right _
        (landmarkObsList_mem.mpr ⟨lp, hlmks ▸ hlp, op, hop, rfl⟩)

/-- Adding a sensor with an empty observation mapping to some robot never
creates a reachable observation. -/
theorem allObs_addSensor (m2 m : MapAbstract) (rk sid : Nat) (sen : Sensor)
    (hrob : m2.robots = m.robots) (hlmks : m2.landmarks = m.landmarks)
    (hobs : sen.observations = []) :
    ∀ o ∈ allObsList { m2 with robots := mapUpdate rk (fun r =>
        { r with sensors := mapInsert sid sen r.sensors }) m2.robots },
      o ∈ allObsList m := by
  intro o ho
  rw [allObsList_eq] at ho ⊢
  rcases List.mem_append.mp ho with hsen | hlmk
  · rcases sensorObsList_mem.mp hsen with ⟨rp, hrp, sp, hsp, op, hop, rfl⟩
    rcases mapUpdate_mem hrp with hrp2 | ⟨q, hq, rfl⟩
    · exact List.mem_append_left _
        (sensorObsList_mem.mpr ⟨rp, hrob ▸ hrp2, sp, hsp, op, hop, rfl⟩)
    · rcases mapInsert_mem hsp with rfl | hsp2
      · rw [hobs] at hop
        simp at hop
      · exact List.mem_append_left _
          (sensorObsList_mem.mpr ⟨q, hrob ▸ hq, sp, hsp2, op, hop, rfl⟩)
  · rcases landmarkObsList_mem.mp hlmk with ⟨lp, hlp, op, hop, rfl⟩
    exact List.mem_append_right _
      (landmarkObsList_mem.mpr ⟨lp, hlmks ▸ hlp, op, hop, rfl⟩)

/-- Creating a sensor never creates a reachable observation. -/
theorem allObs_newSensor (m : MapAbstract) (rk : Nat) (name : String)
    (flag : Bool) :
    ∀ o ∈ allObsList (newSensor m rk name flag).1, o ∈ allObsList m := by
  intro o ho
  rcases hf : mapFind rk m.robots with _ | rob
  · have hres : (newSensor m rk name flag).1 = m := by
      unfold newSensor
      rw [hf]
    rwa [hres] at ho
  · rcases hg : m.sensorIds.getId with ⟨sid, pool⟩
    unfold newSensor at ho
    rw [hf] at ho
    dsimp only at ho
    rw [hg] at ho
    dsimp only at ho
    by_cases hflag : flag = true
    · rw [if_pos hflag] at ho
      rcases hs : stateAllocate { m with sensorIds := pool } size_senPH
        with _ | ⟨slot, m2⟩
      · rw [hs] at ho
        dsimp only at ho
        rwa [show allObsList { m with sensorIds := pool } = allObsList m from
          allObsList_congr rfl rfl] at ho
      · obtain ⟨hm2, -⟩ := stateAllocate_some hs
        rw [hs] at ho
        dsimp only at ho
        exact allObs_addSensor m2 m rk sid
          ⟨sid, name, flag, rob.id, some slot, []⟩
          (by rw [hm2]) (by rw [hm2]) rfl o ho
    · rw [if_neg hflag] at ho
      dsimp only at ho
      exact allObs_addSensor { m with sensorIds := pool } m rk sid
        ⟨sid, name, flag, rob.id, none, []⟩ rfl rfl rfl o ho

/-- Creating an observation adds (at most) the freshly built observation to
the reachable set. -/
theorem allObs_newObservation (m : MapAbstract) (rk sk lk : Nat) :
    ∀ o ∈ allObsList (newObservation m rk sk lk),
      o ∈ allObsList m
      ∨ ∃ (sen : Sensor) (lmk : Landmark), o = mkObservation sen lmk := by
  intro o ho
  rcases hfr : mapFind rk m.robots with _ | rob
  · left
    rwa [show newObservation m rk sk lk = m by unfold newObservation; rw [hfr]]
      at ho
  · rcases hfs : mapFind sk rob.sensors with _ | sen
    · left
      rwa [show newObservation m rk sk lk = m by
        unfold newObservation; rw [hfr]; dsimp only; rw [hfs]] at ho
    · rcases hfl : mapFind lk m.landmarks with _ | lmk
      · left
        rwa [show newObservation m rk sk lk = m by
          unfold newObservation; rw [hfr]; dsimp only; rw [hfs]; dsimp only
          rw [hfl]] at ho
      · unfold newObservation at ho
        rw [hfr] at ho
        dsimp only at ho
        rw [hfs] at ho
        dsimp only at ho
        rw [hfl] at ho
        dsimp only at ho
        rw [allObsList_eq] at ho
        rcases List.mem_append.mp ho with hsen2 | hlmk2
        · rcases sensorObsList_mem.mp hsen2 with ⟨rp, hrp, sp, hsp, op, hop, rfl⟩
          rcases mapUpdate_mem hrp with hrp2 | ⟨q, hq, rfl⟩
          · exact Or.inl (List.mem_append_left _
              (sensorObsList_mem.mpr ⟨rp, hrp2, sp, hsp, op, hop, rfl⟩))
          · rcases mapUpdate_mem hsp with hsp2 | ⟨q2, hq2, rfl⟩
            · exact Or.inl (List.mem_append_left _
                (sensorObsList_mem.mpr ⟨q, hq, sp, hsp2, op, hop, rfl⟩))
            · rcases mapInsert_mem hop with rfl | hop2
              · exact Or.inr ⟨sen, lmk, rfl⟩
              · exact Or.inl (List.mem_append_left _
                  (sensorObsList_mem.mpr ⟨q, hq, q2, hq2, op, hop2, rfl⟩))
        · rcases landmarkObsList_mem.mp hlmk2 with ⟨lp, hlp, op, hop, rfl⟩
          rcases mapUpdate_mem hlp with hlp2 | ⟨q, hq, rfl⟩
          · exact Or.inl (List.mem_append_right _
              (landmarkObsList_mem.mpr ⟨lp, hlp2, op, hop, rfl⟩))
          · rcases mapInsert_mem hop with rfl | hop2
            · exact Or.inr ⟨sen, lmk, rfl⟩
            · exact Or.inl (List.mem_append_right _
                (landmarkObsList_mem.mpr ⟨q, hq, op, hop2, rfl⟩))

/-- Creating a landmark adds (at most) freshly built observations to the
reachable set. -/
theorem allObs_newLandmark (m : MapAbstract) :
    ∀ o ∈ allObsList (newLandmark m).1,
      o ∈ allObsList m
      ∨ ∃ (sen : Sensor) (lmk : Landmark), o = mkObservation sen lmk := by
  rcases hg : m.landmarkIds.getId with ⟨lid, pool⟩
  rcases hs : stateAllocate { m with landmarkIds := pool } size_lmkAHP
    with _ | ⟨slot, m2⟩
  · have hres : (newLandmark m).1 = { m with landmarkIds := pool } := by
      unfold newLandmark
      rw [hg]
      dsimp only
      rw [hs]
    intro o ho
    rw [hres] at ho
    rw [show allObsList { m with landmarkIds := pool } = allObsList m from
      allObsList_congr rfl rfl] at ho
    exact Or.inl ho
  · obtain ⟨hm2, -⟩ := stateAllocate_some hs
    have hres : (newLandmark m).1
        = (let lmk2 : Landmark := ⟨lid, "", true, slot, []⟩
           let m3 : MapAbstract :=
             { m2 with landmarks := mapInsert lid lmk2 m2.landmarks }
           m3.robots.foldl (fun acc p =>
             p.2.sensors.foldl (fun acc2 q => newObservation acc2 p.1 q.1 lid)
               acc) m3) := by
      unfold newLandmark
      rw [hg]
      dsimp only
      rw [hs]
    rw [hres]
    dsimp only
    set P : MapAbstract → Prop := fun st =>
      ∀ o ∈ allObsList st,
        o ∈ allObsList m
        ∨ ∃ (sen : Sensor) (lmk : Landmark), o = mkObservation sen lmk with hP
    show P _
    apply foldl_preserves
    · intro acc p hacc
      apply foldl_preserves
      · intro acc2 q hacc2
        intro o ho
        rcases allObs_newObservation acc2 p.1 q.1 lid o ho with h | h
        · exact hacc2 o h
        · exact Or.inr h
      · exact hacc
    · intro o ho
      rw [allObsList_eq] at ho
      rcases List.mem_append.mp ho with hsen | hlmk
      · rcases sensorObsList_mem.mp hsen with ⟨rp, hrp, sp, hsp, op, hop, rfl⟩
        refine Or.inl ?_
        rw [allObsList_eq]
        have hrob : m2.robots = m.robots := by rw [hm2]
        exact List.mem_append_left _
          (sensorObsList_mem.mpr ⟨rp, hrob ▸ hrp, sp, hsp, op, hop, rfl⟩)
      · rcases landmarkObsList_mem.mp hlmk with ⟨lp, hlp, op, hop, rfl⟩
        rcases mapInsert_mem hlp with rfl | hlp2
        · simp at hop
        · refine Or.inl ?_
          rw [allObsList_eq]
          have hlmks : m2.landmarks = m.landmarks := by rw [hm2]
          exact List.mem_append_right _
            (landmarkObsList_mem.mpr ⟨lp, hlmks ▸ hlp2, op, hop, rfl⟩)

/-- C10: every Observation created through the observation-construction path
is assigned the constant id 0 (obsPtr id = 0 in newObservation); the
all-ids-zero property is preserved by all four construction operations, so
any two simultaneously reachable observations have equal ids and ids never
distinguish observations. -/
theorem claim_C10 :
    (∀ (sen : Sensor) (lmk : Landmark), (mkObservation sen lmk).id = 0)
    ∧ (∀ (m : MapAbstract) (name : String) (rk sk lk : Nat) (flag : Bool),
        obsIdsAllZero m →
        obsIdsAllZero (newRobot m name).1
        ∧ obsIdsAllZero (newSensor m rk name flag).1
        ∧ obsIdsAllZero (newObservation m rk sk lk)
        ∧ obsIdsAllZero (newLandmark m).1)
    ∧ (∀ m : MapAbstract, obsIdsAllZero m →
        ∀ o1 ∈ allObsList m, ∀ o2 ∈ allObsList m, o1.id = o2.id) := by
  refine ⟨fun sen lmk => rfl, ?_, ?_⟩
  · intro m name rk sk lk flag hm
    refine ⟨?_, ?_, ?_, ?_⟩
    · intro o ho
      exact hm o (allObs_newRobot m name o ho)
    · intro o ho
      exact hm o (allObs_newSensor m rk name flag o ho)
    · intro o ho
      rcases allObs_newObservation m rk sk lk o ho with h | ⟨sen, lmk, rfl⟩
      · exact hm o h
      · rfl
    · intro o ho
      rcases allObs_newLandmark m o ho with h | ⟨sen, lmk, rfl⟩
      · exact hm o h
      · rfl
  · intro m hm o1 h1 o2 h2
    rw [hm o1 h1, hm o2 h2]

/-- C10 witness: in the concrete map built by initSlam 300 and two
landmarks, the observations of sensor 1 and of landmark 1 have equal ids. -/
theorem claim_C10_witness :
    (⟨0, 1, 2⟩ : Observation).id = (⟨0, 2, 1⟩ : Observation).id :=
  claim_C10.2.2 (initSomeLmks (initSlam 300) 2)
    (by unfold obsIdsAllZero; decide)
    ⟨0, 1, 2⟩ (by decide) ⟨0, 2, 1⟩ (by decide)

/-- C9: creating a sensor does not fan out to existing landmarks: the
landmark mapping (hence every landmark's observation mapping) is unchanged,
and no observation becomes reachable that was not reachable before. -/
theorem claim_C9 :
    ∀ (m : MapAbstract) (rk : Nat) (name : String) (flag : Bool),
      (newSensor m rk name flag).1.landmarks = m.landmarks
      ∧ ∀ o ∈ allObsList (newSensor m rk name flag).1, o ∈ allObsList m := by
  intro m rk name flag
  refine ⟨?_, allObs_newSensor m rk name flag⟩
  rcases hf : mapFind rk m.robots with _ | rob
  · rw [show (newSensor m rk name flag).1 = m by unfold newSensor; rw [hf]]
  · rcases hg : m.sensorIds.getId with ⟨sid, pool⟩
    unfold newSensor
    rw [hf]
    dsimp only
    rw [hg]
    dsimp only
    by_cases hflag : flag = true
    · rw [if_pos hflag]
      rcases hs : stateAllocate { m with sensorIds := pool } size_senPH
        with _ | ⟨slot, m2⟩
      · rfl
      · obtain ⟨hm2, -⟩ := stateAllocate_some hs
        dsimp only
        subst hm2
        rfl
    · rw [if_neg hflag]

/-- C9 witness: adding a third sensor to the concrete map with one landmark
leaves the landmark mapping unchanged, and the landmark's observation was
already reachable before. -/
theorem claim_C9_witness :
    (newSensor (initSomeLmks (initSlam 300) 1) 1 "PANTILT" false).1.landmarks
        = (initSomeLmks (initSlam 300) 1).landmarks
    ∧ (⟨0, 2, 1⟩ : Observation) ∈ allObsList (initSomeLmks (initSlam 300) 1) :=
  ⟨(claim_C9 (initSomeLmks (initSlam 300) 1) 1 "PANTILT" false).1,
   (claim_C9 (initSomeLmks (initSlam 300) 1) 1 "PANTILT" false).2
     ⟨0, 2, 1⟩ (by decide)⟩

/-- C3 counterexample: on a map of capacity 5 the robot slot (13 states)
cannot be allocated; newRobot fails with CapacityExceeded, but the robot id
has already been drawn before the constructor runs: the robot IdPool counter
advances from 1 to 2.  An id IS consumed on the failing path, contradicting
the claim as stated. -/
theorem claim_C3_counterexample :
    (newRobot (emptyMap 5) "SUBMARINE").2
        = Except.error SlamError.CapacityExceeded
    ∧ (emptyMap 5).robotIds.counter = 1
    ∧ (newRobot (emptyMap 5) "SUBMARINE").1.robotIds.counter = 2 := by
  refine ⟨by decide, rfl, by decide⟩

/-- C3 amended: whenever the arena cannot allocate the robot slot, newRobot
fails with CapacityExceeded and leaves the map unchanged EXCEPT that the
robot id drawn before construction stays consumed from the robot IdPool (no
robot is registered, no arena state changes, no other pool changes). -/
theorem claim_C3 :
    ∀ (m : MapAbstract) (name : String),
      m.max_size < m.used + size_robCV →
      (newRobot m name).2 = Except.error SlamError.CapacityExceeded
      ∧ (newRobot m name).1 = { m with robotIds := (m.robotIds.getId).2 } := by
  intro m name h
  rcases hg : m.robotIds.getId with ⟨rid, pool⟩
  have hs : stateAllocate { m with robotIds := pool } size_robCV = none := by
    have hneg : ¬ (({ m with robotIds := pool } : MapAbstract).used
        + size_robCV ≤ ({ m with robotIds := pool } : MapAbstract).max_size) := by
      dsimp only
      omega
    unfold stateAllocate
    rw [if_neg hneg]
  constructor
  · unfold newRobot
    rw [hg]
    dsimp only
    rw [hs]
  · unfold newRobot
    rw [hg]
    dsimp only
    rw [hs]

/-- C3 witness: the amended statement applied to a concrete undersized
map. -/
theorem claim_C3_witness :
    (emptyMap 5).max_size < (emptyMap 5).used + size_robCV
    ∧ (newRobot (emptyMap 5) "AEROPLANE").2
        = Except.error SlamError.CapacityExceeded
    ∧ (newRobot (emptyMap 5) "AEROPLANE").1
        = { emptyMap 5 with robotIds := ((emptyMap 5).robotIds.getId).2 } :=
  ⟨by decide, (claim_C3 (emptyMap 5) "AEROPLANE" (by decide)).1,
   (claim_C3 (emptyMap 5) "AEROPLANE" (by decide)).2⟩

/-- Refined membership in mapUpdate when the key is present: an entry of the
result is an untouched old entry or the image of the found entry. -/
theorem mapUpdate_mem_find {α : Type} {k : Nat} {f : α → α} {l : AssocMap α}
    {v : α} {p : Nat × α} (hf : mapFind k l = some v)
    (hp : p ∈ mapUpdate k f l) : p ∈ l ∨ p = (k, f v) := by
  induction l with
  | nil => simp [mapUpdate] at hp
  | cons q rest ih =>
    by_cases hq : q.1 = k
    · rw [show q = (q.1, q.2) from rfl, mapFind, if_pos hq] at hf
      injection hf with hf
      rw [show q = (q.1, q.2) from rfl, mapUpdate, if_pos hq] at hp
      rcases List.mem_cons.mp hp with rfl | hp
      · right
        rw [hq, hf]
      · exact Or.inl (List.mem_cons_of_mem _ hp)
    · rw [show q = (q.1, q.2) from rfl, mapFind, if_neg hq] at hf
      rw [show q = (q.1, q.2) from rfl, mapUpdate, if_neg hq] at hp
      rcases List.mem_cons.mp hp with rfl | hp
      · exact Or.inl (List.mem_cons_self _ _)
      · rcases ih hf hp with h | h
        · exact Or.inl (List.mem_cons_of_mem _ h)
        · exact Or.inr h

/-- newObservation preserves the bidirectional-link invariant. -/
theorem wellLinked_newObservation (m : MapAbstract) (rk sk lk : Nat)
    (hm : wellLinked m) : wellLinked (newObservation m rk sk lk) := by
  rcases hfr : mapFind rk m.robots with _ | rob
  · rw [show newObservation m rk sk lk = m by unfold newObservation; rw [hfr]]
    exact hm
  · rcases hfs : mapFind sk rob.sensors with _ | sen
    · rw [show newObservation m rk sk lk = m by
        unfold newObservation; rw [hfr]; dsimp only; rw [hfs]]
      exact hm
    · rcases hfl : mapFind lk m.landmarks with _ | lmk
      · rw [show newObservation m rk sk lk = m by
          unfold newObservation; rw [hfr]; dsimp only; rw [hfs]; dsimp only
          rw [hfl]]
        exact hm
      · obtain ⟨hrob, hlmk⟩ := hm
        unfold newObservation
        rw [hfr]
        dsimp only
        rw [hfs]
        dsimp only
        rw [hfl]
        dsimp only
        unfold wellLinked
        dsimp only
        constructor
        · intro rp hrp
          rcases mapUpdate_mem_find hfr hrp with hold | rfl
          · exact hrob rp hold
          · have hro := hrob (rk, rob) (mapFind_mem hfr)
            refine ⟨hro.1, ?_⟩
            intro sp hsp
            rcases mapUpdate_mem_find hfs hsp with hold2 | rfl
            · exact hro.2 sp hold2
            · have hse := hro.2 (sk, sen) (mapFind_mem hfs)
              refine ⟨hse.1, ?_⟩
              intro op hop
              rcases mapInsert_mem hop with rfl | hold3
              · rfl
              · exact hse.2 op hold3
        · intro lp hlp
          rcases mapUpdate_mem_find hfl hlp with hold | rfl
          · exact hlmk lp hold
          · have hlm := hlmk (lk, lmk) (mapFind_mem hfl)
            refine ⟨hlm.1, ?_⟩
            intro op hop
            rcases mapInsert_mem hop with rfl | hold2
            · rfl
            · exact hlm.2 op hold2

/-- newRobot preserves the bidirectional-link invariant. -/
theorem wellLinked_newRobot (m : MapAbstract) (name : String)
    (hm : wellLinked m) : wellLinked (newRobot m name).1 := by
  rcases hg : m.robotIds.getId with ⟨rid, pool⟩
  unfold newRobot
  rw [hg]
  dsimp only
  rcases hs : stateAllocate { m with robotIds := pool } size_robCV
    with _ | ⟨slot, m2⟩
  · exact hm
  · obtain ⟨hm2, -⟩ := stateAllocate_some hs
    subst hm2
    obtain ⟨hrob, hlmk⟩ := hm
    refine ⟨?_, hlmk⟩
    intro rp hrp
    rcases mapInsert_mem hrp with rfl | hold
    · refine ⟨rfl, ?_⟩
      intro sp hsp
      exact absurd hsp (List.not_mem_nil sp)
    · exact hrob rp hold

/-- newSensor preserves the bidirectional-link invariant. -/
theorem wellLinked_newSensor (m : MapAbstract) (rk : Nat) (name : String)
    (flag : Bool) (hm : wellLinked m) :
    wellLinked (newSensor m rk name flag).1 := by
  rcases hf : mapFind rk m.robots with _ | rob
  · rw [show (newSensor m rk name flag).1 = m by unfold newSensor; rw [hf]]
    exact hm
  · rcases hg : m.sensorIds.getId with ⟨sid, pool⟩
    obtain ⟨hrob, hlmk⟩ := hm
    have hkey : ∀ sen2 : Sensor, sen2.robotId = rob.id →
        sen2.observations = [] →
        ∀ rp ∈ mapUpdate rk (fun r =>
          { r with sensors := mapInsert sid sen2 r.sensors }) m.robots,
          rp.2.linkedToMap = true
          ∧ ∀ sp ∈ rp.2.sensors, sp.2.robotId = rp.2.id
            ∧ ∀ op ∈ sp.2.observations, op.2.sensorId = sp.2.id := by
      intro sen2 hsen2id hsen2obs rp hrp
      rcases mapUpdate_mem_find hf hrp with hold | rfl
      · exact hrob rp hold
      · have hro := hrob (rk, rob) (mapFind_mem hf)
        refine ⟨hro.1, ?_⟩
        intro sp hsp
        rcases mapInsert_mem hsp with rfl | hold2
        · refine ⟨hsen2id, ?_⟩
          intro op hop
          rw [hsen2obs] at hop
          exact absurd hop (List.not_mem_nil op)
        · exact hro.2 sp hold2
    unfold newSensor
    rw [hf]
    dsimp only
    rw [hg]
    dsimp only
    by_cases hflag : flag = true
    · rw [if_pos hflag]
      rcases hs : stateAllocate { m with sensorIds := pool } size_senPH
        with _ | ⟨slot, m2⟩
      · exact ⟨hrob, hlmk⟩
      · obtain ⟨hm2, -⟩ := stateAllocate_some hs
        subst hm2
        exact ⟨hkey ⟨sid, name, flag, rob.id, some slot, []⟩ rfl rfl, hlmk⟩
    · rw [if_neg hflag]
      exact ⟨hkey ⟨sid, name, flag, rob.id, none, []⟩ rfl rfl, hlmk⟩

/-- newLandmark preserves the bidirectional-link invariant. -/
theorem wellLinked_newLandmark (m : MapAbstract) (hm : wellLinked m) :
    wellLinked (newLandmark m).1 := by
  rcases hg : m.landmarkIds.getId with ⟨lid, pool⟩
  unfold newLandmark
  rw [hg]
  dsimp only
  rcases hs : stateAllocate { m with landmarkIds := pool } size_lmkAHP
    with _ | ⟨slot, m2⟩
  · exact hm
  · obtain ⟨hm2, -⟩ := stateAllocate_some hs
    subst hm2
    dsimp only
    obtain ⟨hrob, hlmk⟩ := hm
    have hbase : wellLinked { m with
        used := m.used + size_lmkAHP,
        landmarkIds := pool,
        landmarks :=
          mapInsert lid (⟨lid, "", true, slot, []⟩ : Landmark)
            m.landmarks } := by
      refine ⟨hrob, ?_⟩
      intro lp hlp
      rcases mapInsert_mem hlp with rfl | hold
      · refine ⟨rfl, ?_⟩
        intro op hop
        exact absurd hop (List.not_mem_nil op)
      · exact hlmk lp hold
    exact foldl_preserves _ _
      (fun acc p hacc => foldl_preserves _ _
        (fun acc2 q hacc2 => wellLinked_newObservation acc2 p.1 q.1 lid hacc2)
        acc hacc) _ hbase

/-- C4: every entity-construction operation creates both directions of each
association link before completing, so the bidirectional-link invariant
(container mapping entry implies correct back-reference) is preserved by
newRobot, newSensor, newObservation and newLandmark. -/
theorem claim_C4 :
    ∀ (m : MapAbstract) (name : String) (rk sk lk : Nat) (flag : Bool),
      wellLinked m →
      wellLinked (newRobot m name).1
      ∧ wellLinked (newSensor m rk name flag).1
      ∧ wellLinked (newObservation m rk sk lk)
      ∧ wellLinked (newLandmark m).1 :=
  fun m name rk sk lk flag hm =>
    ⟨wellLinked_newRobot m name hm, wellLinked_newSensor m rk name flag hm,
     wellLinked_newObservation m rk sk lk hm, wellLinked_newLandmark m hm⟩

/-- C4 witness: the invariant holds for the concrete populated map and is
preserved by one application of each operation there. -/
theorem claim_C4_witness :
    wellLinked (newRobot (initSomeLmks (initSlam 300) 1) "AEROPLANE").1
    ∧ wellLinked
        (newSensor (initSomeLmks (initSlam 300) 1) 1 "AEROPLANE" false).1
    ∧ wellLinked (newObservation (initSomeLmks (initSlam 300) 1) 1 2 1)
    ∧ wellLinked (newLandmark (initSomeLmks (initSlam 300) 1)).1 :=
  claim_C4 (initSomeLmks (initSlam 300) 1) "AEROPLANE" 1 2 1 false
    (by unfold wellLinked; decide)

/-- unusedStates succeeds when the probe fits. -/
theorem unusedStates_true {m : MapAbstract} {n : Nat}
    (h : m.used + n ≤ m.max_size) : unusedStates m n = true := by
  unfold unusedStates
  exact decide_eq_true h

/-- Successful newRobot, written out. -/
theorem newRobot_succ (m : MapAbstract) (name : String)
    (h : m.used + size_robCV ≤ m.max_size) :
    newRobot m name
      = ({ m with
            robotIds := (m.robotIds.getId).2,
            used := m.used + size_robCV,
            robots := mapInsert (m.robotIds.getId).1
              (⟨(m.robotIds.getId).1, name, true, (m.used, size_robCV), []⟩ : Robot)
              m.robots },
         Except.ok (m.robotIds.getId).1) := by
  rcases hg : m.robotIds.getId with ⟨rid, pool⟩
  unfold newRobot
  rw [hg]
  dsimp only
  unfold stateAllocate
  rw [if_pos h]

/-- Successful newSensor with an out-of-state pose, written out. -/
theorem newSensor_succ_false (m : MapAbstract) (rk : Nat) (name : String)
    (rob : Robot) (hf : mapFind rk m.robots = some rob) :
    newSensor m rk name false
      = (let sid := (m.sensorIds.getId).1
         let sen : Sensor := ⟨sid, name, false, rob.id, none, []⟩
         ({ m with
             sensorIds := (m.sensorIds.getId).2,
             robots := mapUpdate rk (fun r =>
               { r with sensors := mapInsert sid sen r.sensors }) m.robots },
          Except.ok sid)) := by
  rcases hg : m.sensorIds.getId with ⟨sid, pool⟩
  unfold newSensor
  rw [hf]
  dsimp only
  rw [hg]
  dsimp only
  rw [if_neg (by simp : ¬ (false = true))]

/-- Successful newSensor with an in-state pose, written out. -/
theorem newSensor_succ_true (m : MapAbstract) (rk : Nat) (name : String)
    (rob : Robot) (hf : mapFind rk m.robots = some rob)
    (h : m.used + size_senPH ≤ m.max_size) :
    newSensor m rk name true
      = (let sid := (m.sensorIds.getId).1
         let sen : Sensor :=
           ⟨sid, name, true, rob.id, some (m.used, size_senPH), []⟩
         ({ m with
             sensorIds := (m.sensorIds.getId).2,
             used := m.used + size_senPH,
             robots := mapUpdate rk (fun r =>
               { r with sensors := mapInsert sid sen r.sensors }) m.robots },
          Except.ok sid)) := by
  rcases hg : m.sensorIds.getId with ⟨sid, pool⟩
  unfold newSensor
  rw [hf]
  dsimp only
  rw [hg]
  dsimp only
  rw [if_pos rfl]
  unfold stateAllocate
  rw [if_pos h]

/-- newObservation with all three lookups succeeding, written out. -/
theorem newObservation_eq (m : MapAbstract) (rk sk lk : Nat) (rob : Robot)
    (sen : Sensor) (lmk : Landmark) (hfr : mapFind rk m.robots = some rob)
    (hfs : mapFind sk rob.sensors = some sen)
    (hfl : mapFind lk m.landmarks = some lmk) :
    newObservation m rk sk lk
      = (let ob : Observation := ⟨0, sen.id, lmk.id⟩
         { m with
           robots := mapUpdate rk (fun r =>
             { r with sensors := mapUpdate sk (fun s =>
               { s with observations :=
                 mapInsert 0 ob s.observations }) r.sensors }) m.robots,
           landmarks := mapUpdate lk (fun l =>
             { l with observations :=
               mapInsert 0 ob l.observations }) m.landmarks }) := by
  unfold newObservation
  rw [hfr]
  dsimp only
  rw [hfs]
  dsimp only
  rw [hfl]
  rfl

/-- Successful newLandmark, written out as the fan-out fold applied to the
intermediate state that holds the freshly linked landmark. -/
theorem newLandmark_succ (m : MapAbstract)
    (h : m.used + size_lmkAHP ≤ m.max_size) :
    newLandmark m
      = ((let m3 : MapAbstract :=
            { m with
              landmarkIds := (m.landmarkIds.getId).2,
              used := m.used + size_lmkAHP,
              landmarks := mapInsert (m.landmarkIds.getId).1
                (⟨(m.landmarkIds.getId).1, "", true, (m.used, size_lmkAHP), []⟩ : Landmark)
                m.landmarks }
          m3.robots.foldl (fun acc p =>
            p.2.sensors.foldl (fun acc2 q =>
              newObservation acc2 p.1 q.1 (m.landmarkIds.getId).1) acc) m3),
         Except.ok (m.landmarkIds.getId).1) := by
  rcases hg : m.landmarkIds.getId with ⟨lid, pool⟩
  unfold newLandmark
  rw [hg]
  dsimp only
  unfold stateAllocate
  rw [if_pos h]

/-- initSlam with sufficient capacity reaches the expected initial state. -/
theorem initSlam_exp (cap : Nat) (h : 20 ≤ cap) :
    initSlam cap = expectedState cap 0 := by
  have h13 : 13 ≤ cap := by omega
  simp [initSlam, newRobot, newSensor, emptyMap, stateAllocate, unusedStates,
    IdPool.getId, size_robCV, size_senPH, expectedState, expRobot, expFlea,
    expMarlin, expSensorObs, mapInsert, mapUpdate, mapFind, h13, h]

/-- Keys of the first k landmark entries never equal the fresh key k+1. -/
theorem expLandmark_key_lt {k : Nat} :
    ∀ p ∈ (List.range k).map expLandmark, p.1 ≠ k + 1 := by
  intro p hp
  rcases List.mem_map.mp hp with ⟨i, hi, rfl⟩
  have hik := List.mem_range.mp hi
  unfold expLandmark
  dsimp only
  omega

/-- Inserting at key 0 overwrites the single slot of a sensor observation
mapping, whether it is still empty or already filled. -/
theorem mapInsert_expSensorObs (sid k : Nat) (v : Observation) :
    mapInsert 0 v (expSensorObs sid k) = [(0, v)] := by
  unfold expSensorObs
  by_cases hk : k = 0
  · rw [if_pos hk]
    rfl
  · rw [if_neg hk]
    simp [mapInsert]

/-- The sensor observation mapping is a filled singleton after k+1
landmarks. -/
theorem expSensorObs_succ (sid k : Nat) :
    expSensorObs sid (k + 1) = [(0, ⟨0, sid, k + 1⟩)] := by
  unfold expSensorObs
  rw [if_neg (Nat.succ_ne_zero k)]

/-- One landmark creation advances the expected state: the fresh landmark
id k+1, the fan-out to FLEA then MARLIN, and the id-0 overwrites. -/
theorem newLandmark_exp (cap k : Nat) (h : 20 + 7 * k + 7 ≤ cap) :
    newLandmark (expectedState cap k)
      = (expectedState cap (k + 1), Except.ok (k + 1)) := by
  simp [newLandmark, stateAllocate, size_lmkAHP, IdPool.getId, expectedState,
    newObservation, mkObservation, expRobot, expFlea, expMarlin, expLandmark,
    mapInsert_append (@expLandmark_key_lt k),
    mapFind_append (@expLandmark_key_lt k),
    mapUpdate_append (@expLandmark_key_lt k), mapInsert_expSensorObs,
    expSensorObs_succ, mapInsert, mapFind, mapUpdate, List.range_succ, h]
  omega

/-- The guarded landmark loop advances the expected state j times. -/
theorem initSomeLmks_exp (cap : Nat) :
    ∀ (j k : Nat), 20 + 7 * (k + j) ≤ cap →
      initSomeLmks (expectedState cap k) j = expectedState cap (k + j) := by
  intro j
  induction j with
  | zero =>
    intro k h
    rfl
  | succ j ih =>
    intro k h
    unfold initSomeLmks
    have hguard : unusedStates (expectedState cap k) size_lmkAHP = true := by
      apply unusedStates_true
      unfold expectedState size_lmkAHP
      dsimp only
      omega
    rw [if_pos hguard]
    rw [newLandmark_exp cap k (by omega)]
    dsimp only
    have hkj : k + (j + 1) = (k + 1) + j := by omega
    rw [hkj]
    exact ih (k + 1) (by omega)

/-- The full reference construction: initSlam then L landmark creations. -/
theorem initState_exp (cap L : Nat) (h : 20 + 7 * L ≤ cap) :
    initSomeLmks (initSlam cap) L = expectedState cap L := by
  rw [initSlam_exp cap (by omega)]
  have h0 := initSomeLmks_exp cap L 0 (by omega)
  rw [Nat.zero_add] at h0
  exact h0

/-- Flattening a list whose blocks are all singletons is mapping. -/
theorem flatten_map_eq_map {α β : Type} {F : α → List β} {g : α → β}
    (l : List α) (h : ∀ a ∈ l, F a = [g a]) :
    (l.map F).flatten = l.map g := by
  induction l with
  | nil => rfl
  | cons a as ih =>
    simp only [List.map_cons, List.flatten_cons, h a (List.mem_cons_self a as)]
    rw [ih fun b hb => h b (List.mem_cons_of_mem a hb)]
    rfl

/-- The sensor-side observation occurrences of the expected state. -/
theorem sensorObs_exp (cap k : Nat) :
    sensorObsList (expectedState cap (k + 1))
      = [⟨0, 1, k + 1⟩, ⟨0, 2, k + 1⟩] := by
  simp [sensorObsList, sensorsOf, expectedState, expRobot, expFlea,
    expMarlin, expSensorObs_succ]

/-- The landmark-side observation occurrences of the expected state. -/
theorem landmarkObs_exp (cap k : Nat) :
    landmarkObsList (expectedState cap k)
      = (List.range k).map (fun i => (⟨0, 2, i + 1⟩ : Observation)) := by
  unfold landmarkObsList landmarksOf expectedState
  dsimp only
  rw [List.map_map, List.map_map]
  refine flatten_map_eq_map _ ?_
  intro i hi
  simp [expLandmark]

/-- The reachable observation occurrences of the expected state: one per
sensor (of the newest landmark) and one per landmark (of MARLIN). -/
theorem allObs_exp (cap k : Nat) :
    allObsList (expectedState cap (k + 1))
      = [⟨0, 1, k + 1⟩, ⟨0, 2, k + 1⟩]
        ++ (List.range (k + 1)).map
            (fun i => (⟨0, 2, i + 1⟩ : Observation)) := by
  rw [allObsList_eq, sensorObs_exp, landmarkObs_exp]

/-- toFinset of a mapped list is the image of its toFinset. -/
theorem list_toFinset_map {α β : Type} [DecidableEq α] [DecidableEq β]
    (f : α → β) (l : List α) : (l.map f).toFinset = l.toFinset.image f := by
  induction l with
  | nil => rfl
  | cons a as ih => simp [ih]

/-- toFinset of List.range is Finset.range. -/
theorem list_toFinset_range (n : Nat) :
    (List.range n).toFinset = Finset.range n := by
  ext a
  simp

/-- The number of distinct reachable observations is k + 2 after k + 1
landmark creations: the two sensor-side entries plus one per landmark, with
MARLIN's newest observation shared between the two sides. -/
theorem distinct_exp (cap k : Nat) :
    distinctObsCount (expectedState cap (k + 1)) = k + 2 := by
  have hinj : Function.Injective (fun i => (⟨0, 2, i + 1⟩ : Observation)) := by
    intro a b hab
    simpa using hab
  unfold distinctObsCount
  rw [allObs_exp, ← List.card_toFinset]
  rw [List.cons_append, List.cons_append, List.nil_append]
  rw [List.toFinset_cons, List.toFinset_cons, list_toFinset_map,
    list_toFinset_range]
  have hb : (⟨0, 2, k + 1⟩ : Observation)
      ∈ (Finset.range (k + 1)).image (fun i => (⟨0, 2, i + 1⟩ : Observation)) := by
    apply Finset.mem_image_of_mem
    exact Finset.self_mem_range_succ k
  rw [Finset.insert_eq_self.mpr hb]
  have ha : (⟨0, 1, k + 1⟩ : Observation)
      ∉ (Finset.range (k + 1)).image (fun i => (⟨0, 2, i + 1⟩ : Observation)) := by
    intro hmem
    rcases Finset.mem_image.mp hmem with ⟨i, -, hi⟩
    simp at hi
  rw [Finset.card_insert_of_not_mem ha, Finset.card_image_of_injective _ hinj,
    Finset.card_range]

/-- C1 counterexample: in the reference construction (initSlam 300, so one
robot and S = 2 sensors) followed by L = 2 landmark creations, the map holds
3 distinct reachable Observations, not S×L = 4; and the observation of
landmark 1 by MARLIN appears in landmark 1's mapping but in no sensor's
mapping (it was overwritten in MARLIN's id-keyed mapping by the fan-out of
landmark 2).  The claim as stated is false. -/
theorem claim_C1_counterexample :
    numSensors (initSomeLmks (initSlam 300) 2) = 2
    ∧ numLandmarks (initSomeLmks (initSlam 300) 2) = 2
    ∧ distinctObsCount (initSomeLmks (initSlam 300) 2) = 3
    ∧ distinctObsCount (initSomeLmks (initSlam 300) 2) ≠ 2 * 2
    ∧ (⟨0, 2, 1⟩ : Observation)
        ∈ landmarkObsList (initSomeLmks (initSlam 300) 2)
    ∧ (⟨0, 2, 1⟩ : Observation)
        ∉ sensorObsList (initSomeLmks (initSlam 300) 2) := by
  refine ⟨by decide, by decide, by decide, by decide, by decide, by decide⟩

/-- C1 amended: creating a Landmark still runs one observation creation per
(robot, sensor) pair, and every retained mapping entry is correctly
back-linked; but because every Observation is assigned id 0 and the
observation mappings are keyed by observation id, each insertion overwrites:
after the reference construction (one robot, two sensors) and L ≥ 1
landmarks, every sensor's mapping retains exactly one Observation (that of
the newest landmark) and every landmark's mapping exactly one (that of the
last-iterated sensor, MARLIN, id 2), so the map holds S + L - 1 = 2 + L - 1
distinct Observations rather than S×L. -/
theorem claim_C1 :
    ∀ (cap L : Nat), 20 + 7 * L ≤ cap → 1 ≤ L →
      numSensors (initSomeLmks (initSlam cap) L) = 2
      ∧ numLandmarks (initSomeLmks (initSlam cap) L) = L
      ∧ (∀ s ∈ sensorsOf (initSomeLmks (initSlam cap) L),
          s.observations.length = 1
          ∧ ∀ p ∈ s.observations, p.2.sensorId = s.id ∧ p.2.landmarkId = L)
      ∧ (∀ l ∈ landmarksOf (initSomeLmks (initSlam cap) L),
          l.observations.length = 1
          ∧ ∀ p ∈ l.observations, p.2.landmarkId = l.id ∧ p.2.sensorId = 2)
      ∧ distinctObsCount (initSomeLmks (initSlam cap) L) = 2 + L - 1 := by
  intro cap L hcap hL
  obtain ⟨k, rfl⟩ : ∃ k, L = k + 1 := ⟨L - 1, by omega⟩
  rw [initState_exp cap (k + 1) hcap]
  refine ⟨rfl, ?_, ?_, ?_, ?_⟩
  · unfold numLandmarks landmarksOf expectedState
    simp
  · intro s hs
    have hs2 : s = expFlea (k + 1) ∨ s = expMarlin (k + 1) := by
      simpa [sensorsOf, expectedState, expRobot] using hs
    rcases hs2 with rfl | rfl
    · refine ⟨by simp [expFlea, expSensorObs_succ], ?_⟩
      intro p hp
      rw [show (expFlea (k + 1)).observations = [(0, ⟨0, 1, k + 1⟩)] from by
        simp [expFlea, expSensorObs_succ]] at hp
      have hp2 := List.mem_singleton.mp hp
      subst hp2
      exact ⟨rfl, rfl⟩
    · refine ⟨by simp [expMarlin, expSensorObs_succ], ?_⟩
      intro p hp
      rw [show (expMarlin (k + 1)).observations = [(0, ⟨0, 2, k + 1⟩)] from by
        simp [expMarlin, expSensorObs_succ]] at hp
      have hp2 := List.mem_singleton.mp hp
      subst hp2
      exact ⟨rfl, rfl⟩
  · intro l hl
    unfold landmarksOf expectedState at hl
    dsimp only at hl
    rw [List.map_map] at hl
    rcases List.mem_map.mp hl with ⟨i, hi, rfl⟩
    refine ⟨by simp [expLandmark], ?_⟩
    intro p hp
    rw [show ((Prod.snd ∘ expLandmark) i).observations
        = [(0, ⟨0, 2, i + 1⟩)] from by simp [expLandmark]] at hp
    have hp2 := List.mem_singleton.mp hp
    subst hp2
    exact ⟨rfl, rfl⟩
  · rw [distinct_exp]
    omega

/-- C1 witness: the amended statement at cap 300 and L = 1. -/
theorem claim_C1_witness :
    numSensors (initSomeLmks (initSlam 300) 1) = 2
    ∧ numLandmarks (initSomeLmks (initSlam 300) 1) = 1
    ∧ (∀ s ∈ sensorsOf (initSomeLmks (initSlam 300) 1),
        s.observations.length = 1
        ∧ ∀ p ∈ s.observations, p.2.sensorId = s.id ∧ p.2.landmarkId = 1)
    ∧ (∀ l ∈ landmarksOf (initSomeLmks (initSlam 300) 1),
        l.observations.length = 1
        ∧ ∀ p ∈ l.observations, p.2.landmarkId = l.id ∧ p.2.sensorId = 2)
    ∧ distinctObsCount (initSomeLmks (initSlam 300) 1) = 2 + 1 - 1 :=
  claim_C1 300 1 (by omega) (by omega)

/-- Rows outside the slot of the scattered Jacobian act as the identity. -/
theorem scatterJac_row {n : Nat} (slot : Finset (Fin n))
    (J M : Matrix (Fin n) (Fin n) ℚ) {i : Fin n} (hi : i ∉ slot)
    (j : Fin n) : (scatterJac slot J * M) i j = M i j := by
  rw [Matrix.mul_apply]
  have hrow : ∀ kk, scatterJac slot J i kk = if i = kk then 1 else 0 := by
    intro kk
    unfold scatterJac
    rw [Matrix.of_apply, if_neg (fun hc => hi hc.1)]
  simp [hrow, ite_mul]

/-- Columns outside the slot of the transposed scattered Jacobian act as
the identity. -/
theorem scatterJac_col {n : Nat} (slot : Finset (Fin n))
    (J M : Matrix (Fin n) (Fin n) ℚ) {j : Fin n} (hj : j ∉ slot)
    (i : Fin n) : (M * Matrix.transpose (scatterJac slot J)) i j = M i j := by
  rw [Matrix.mul_apply]
  have hrow : ∀ kk, scatterJac slot J j kk = if j = kk then 1 else 0 := by
    intro kk
    unfold scatterJac
    rw [Matrix.of_apply, if_neg (fun hc => hj hc.1)]
  simp [Matrix.transpose_apply, hrow, mul_ite]

/-- The scattered identity Jacobian is the identity. -/
theorem scatterJac_one {n : Nat} (slot : Finset (Fin n)) :
    scatterJac slot (1 : Matrix (Fin n) (Fin n) ℚ) = 1 := by
  ext i j
  unfold scatterJac
  rw [Matrix.of_apply]
  by_cases h : i ∈ slot ∧ j ∈ slot
  · rw [if_pos h]
  · rw [if_neg h, Matrix.one_apply]

/-- The scattered zero noise is zero at every entry. -/
theorem scatterNoise_zero {n : Nat} (slot : Finset (Fin n)) (i j : Fin n) :
    scatterNoise slot (0 : Matrix (Fin n) (Fin n) ℚ) i j = 0 := by
  unfold scatterNoise
  rw [Matrix.of_apply]
  by_cases h : i ∈ slot ∧ j ∈ slot
  · rw [if_pos h]
    rfl
  · rw [if_neg h]

/-- With the identity Jacobian and zero noise, predict changes nothing. -/
theorem ekfPredict_id {n : Nat} (slot : Finset (Fin n))
    (P : Matrix (Fin n) (Fin n) ℚ) :
    ekfPredict Finset.univ slot 1 0 P = P := by
  ext i j
  unfold ekfPredict
  rw [Matrix.of_apply, if_pos ⟨Finset.mem_univ i, Finset.mem_univ j⟩,
    scatterJac_one, Matrix.transpose_one, Matrix.mul_one, Matrix.one_mul,
    Matrix.add_apply, scatterNoise_zero, add_zero]

/-- C5: for every predict call, covariance blocks not involving the moving
robot's slot are unchanged; and in the scenario of one robot with
2-dimensional state (slot {0, 1} of a 4-dimensional state), identity
Jacobian and zero process noise, the landmark block and both cross blocks
are unchanged while the robot's own block equals J·P·Jᵀ for the local
identity Jacobian J. -/
theorem claim_C5 :
    (∀ (n : Nat) (used slot : Finset (Fin n))
        (J Q P : Matrix (Fin n) (Fin n) ℚ) (i j : Fin n),
        i ∉ slot → j ∉ slot → ekfPredict used slot J Q P i j = P i j)
    ∧ ∀ P : Matrix (Fin 4) (Fin 4) ℚ,
        (∀ i j : Fin 4, 2 ≤ i.val → 2 ≤ j.val →
          ekfPredict Finset.univ robotSlot2 1 0 P i j = P i j)
        ∧ (∀ i j : Fin 4, i.val < 2 → 2 ≤ j.val →
          ekfPredict Finset.univ robotSlot2 1 0 P i j = P i j)
        ∧ (∀ i j : Fin 4, 2 ≤ i.val → j.val < 2 →
          ekfPredict Finset.univ robotSlot2 1 0 P i j = P i j)
        ∧ (∀ a b : Fin 2,
          ekfPredict Finset.univ robotSlot2 1 0 P (embFin a) (embFin b)
            = ((1 : Matrix (Fin 2) (Fin 2) ℚ) * robotBlock P
                * Matrix.transpose (1 : Matrix (Fin 2) (Fin 2) ℚ)) a b) := by
  constructor
  · intro n used slot J Q P i j hi hj
    unfold ekfPredict
    rw [Matrix.of_apply]
    by_cases hu : i ∈ used ∧ j ∈ used
    · rw [if_pos hu, Matrix.add_apply]
      have hq : scatterNoise slot Q i j = 0 := by
        unfold scatterNoise
        rw [Matrix.of_apply, if_neg (fun hc => hi hc.1)]
      rw [hq, add_zero]
      rw [scatterJac_col slot J (scatterJac slot J * P) hj i]
      exact scatterJac_row slot J P hi j
    · rw [if_neg hu]
  · intro P
    refine ⟨?_, ?_, ?_, ?_⟩
    · intro i j hi hj
      rw [ekfPredict_id]
    · intro i j hi hj
      rw [ekfPredict_id]
    · intro i j hi hj
      rw [ekfPredict_id]
    · intro a b
      rw [ekfPredict_id, Matrix.transpose_one, Matrix.mul_one,
        Matrix.one_mul]
      rfl

/-- C5 witness: the frame property applied at a concrete out-of-slot entry,
and the robot-block equation at a concrete in-slot entry. -/
theorem claim_C5_witness :
    ekfPredict Finset.univ robotSlot2 1 0 matC5 (3 : Fin 4) (2 : Fin 4)
        = matC5 3 2
    ∧ ekfPredict Finset.univ robotSlot2 1 0 matC5 (embFin 0) (embFin 1)
        = ((1 : Matrix (Fin 2) (Fin 2) ℚ) * robotBlock matC5
            * Matrix.transpose (1 : Matrix (Fin 2) (Fin 2) ℚ)) 0 1 :=
  ⟨claim_C5.1 4 Finset.univ robotSlot2 1 0 matC5 3 2 (by decide) (by decide),
   ((claim_C5.2 matC5).2.2.2) 0 1⟩

end RtSlam

